import Mathlib

/-!
Verification development for the gVCF aggregator
(`src/starka/src/lib/starling_common/gvcf_aggregator.cpp`).

The C++ translation unit is embedded shallowly: every function of the file
becomes a Lean definition operating on an explicit aggregator state, and the
output stream becomes a list of emitted lines.  Machine integers are modelled
by `Int`/`Nat` (all quantities involved stay far from any overflow boundary),
fallible code (C `assert`) returns `Option`, and the `double` comparison in
`is_site_record_blockable` is modelled over `ℚ` (exact where the inputs used
in the theorems below are exact).

Types and member functions that live in headers outside the translation unit
(`site_info`, `indel_info`, `gvcf_block_site_record`, `DIGT`, `indel_key`,
...) are modelled from the specification; their doc comments say so.
-/

/-- Filter flags of a record, per the spec's fixed-cardinality set of
independent boolean "reasons a record is suspect". -/
inductive VCF_FILTERS where
  | LowGQX
  | HighDepth
  | IndelConflict
  | SiteConflict
deriving DecidableEq, Repr

/-- Modelled from the spec: the filter set held as bit flags; one boolean per
named filter. -/
structure filter_set where
  lowGQX : Bool := false
  highDepth : Bool := false
  indelConflict : Bool := false
  siteConflict : Bool := false
deriving DecidableEq, Repr

/-- Membership test of one named flag. -/
def filter_set.has (fs : filter_set) : VCF_FILTERS → Bool
  | .LowGQX => fs.lowGQX
  | .HighDepth => fs.highDepth
  | .IndelConflict => fs.indelConflict
  | .SiteConflict => fs.siteConflict

/-- The C++ `set_filter`: turn one named flag on. -/
def filter_set.set (fs : filter_set) : VCF_FILTERS → filter_set
  | .LowGQX => { fs with lowGQX := true }
  | .HighDepth => { fs with highDepth := true }
  | .IndelConflict => { fs with indelConflict := true }
  | .SiteConflict => { fs with siteConflict := true }

/-- Bitwise AND of two flag sets (the C++ `filters &= ...`). -/
def filter_set.land (a b : filter_set) : filter_set :=
  ⟨a.lowGQX && b.lowGQX, a.highDepth && b.highDepth,
   a.indelConflict && b.indelConflict, a.siteConflict && b.siteConflict⟩

/-- Bitwise OR of two flag sets. -/
def filter_set.lor (a b : filter_set) : filter_set :=
  ⟨a.lowGQX || b.lowGQX, a.highDepth || b.highDepth,
   a.indelConflict || b.indelConflict, a.siteConflict || b.siteConflict⟩

/-- Modelled from the spec: filter column text, "." when no filter is set,
otherwise the filter names joined by a semicolon. -/
def write_filters (fs : filter_set) : String :=
  let l := (if fs.lowGQX then ["LowGQX"] else []) ++
           (if fs.highDepth then ["HighDepth"] else []) ++
           (if fs.indelConflict then ["IndelConflict"] else []) ++
           (if fs.siteConflict then ["SiteConflict"] else [])
  if l.isEmpty then "." else String.intercalate ";" l

/-- Modelled from the spec: a diploid site genotype, two base alleles
(0=A, 1=C, 2=G, 3=T).  The C++ stores a packed genotype code; the DIGT
helpers below recover exactly the information the aggregator consumes. -/
structure diploid_gt where
  a1 : Fin 4 := 0
  a2 : Fin 4 := 0
deriving DecidableEq, Repr

/-- Modelled from the spec: heterozygosity of a diploid site genotype. -/
def DIGT_is_het (g : diploid_gt) : Bool := g.a1 != g.a2

/-- Modelled from the spec: does genotype `g` carry base `b`
(the C++ `DIGT::expect2`). -/
def DIGT_expect2 (b : Fin 4) (g : diploid_gt) : Bool := b == g.a1 || b == g.a2

/-- Modelled from the spec: base letter of a base code. -/
def id_to_base (b : Fin 4) : Char :=
  if b = 0 then 'A' else if b = 1 then 'C' else if b = 2 then 'G' else 'T'

/-- Modelled from the spec: the homozygous genotype of one base; the C++
encodes it by the base code itself, so comparing a genotype code with
`ref_gt` means comparing with this genotype. -/
def DIGT_hom (b : Fin 4) : diploid_gt := ⟨b, b⟩

/-- One genotype-model result consumed by the aggregator: the most likely
genotype, its quality, and the site quality. -/
structure result_set where
  max_gt : diploid_gt := {}
  max_gt_qphred : Nat := 0
  snp_qphred : Nat := 0
deriving DecidableEq, Repr

/-- The per-site diploid genotype result pair (genome prior and
polymorphism prior models) plus reference allele info. -/
structure diploid_genotype where
  genome : result_set := {}
  poly : result_set := {}
  is_snp : Bool := false
  ref_gt : Fin 4 := 0
deriving DecidableEq, Repr

/-- Output-genotype override applied when an overlapping indel forces the
ploidy of a site. -/
inductive MODIFIED_SITE_GT where
  | NONE
  | UNKNOWN
  | ZERO
  | ONE
deriving DecidableEq, Repr

/-- Derived modifier state of a site call. -/
structure site_modifiers where
  max_gt : diploid_gt := {}
  gqx : Nat := 0
  filters : filter_set := {}
  is_unknown : Bool := false
  is_used_covered : Bool := false
  is_covered : Bool := false
  is_block : Bool := false
  is_zero_ploidy : Bool := false
  modified_gt : MODIFIED_SITE_GT := .NONE
deriving DecidableEq, Repr

/-- A site call: position, reference base, genotype results, call counts and
per-allele observed counts, plus its derived modifiers. -/
structure site_info where
  pos : Int := 0
  ref : Char := 'N'
  dgt : diploid_genotype := {}
  n_used_calls : Nat := 0
  n_unused_calls : Nat := 0
  known_counts : Fin 4 → Nat := fun _ => 0
  smod : site_modifiers := {}

/-- Modelled from the spec: an indel key describes the deleted/inserted
sequence lengths, its position, and whether the call is a
breakpoint/structural call. -/
structure indel_key where
  pos : Int := 0
  delete_length : Nat := 0
  insert_length : Nat := 0
  is_bp : Bool := false
deriving DecidableEq, Repr

/-- Modelled from the spec: the right boundary of an indel key
(position plus deleted length). -/
def indel_key.right_pos (ik : indel_key) : Int := ik.pos + ik.delete_length

/-- The three diploid indel genotype states consumed by the aggregator. -/
inductive STAR_DIINDEL where
  | NOINDEL
  | HOM
  | HET
deriving DecidableEq, Repr

/-- Diploid indel genotype result: chosen genotype, its quality and the
indel's own quality. -/
structure starling_diploid_indel_core where
  max_gt : STAR_DIINDEL := .NOINDEL
  max_gt_qphred : Nat := 0
  indel_qphred : Nat := 0
deriving DecidableEq, Repr

/-- Per-indel report info: the VCF-style reference and alt sequences. -/
structure starling_indel_report_info where
  vcf_ref_seq : String := ""
  vcf_indel_seq : String := ""
deriving DecidableEq, Repr

/-- Per-sample indel report info (only depth is consumed here). -/
structure starling_indel_sample_report_info where
  depth : Nat := 0
deriving DecidableEq, Repr

/-- Alignment segment kinds (ALIGNPATH). -/
inductive align_t where
  | MATCH
  | INSERT
  | DELETE
deriving DecidableEq, Repr

/-- One alignment descriptor segment. -/
structure path_segment where
  ptype : align_t
  length : Nat
deriving DecidableEq, Repr

/-- Text of one alignment segment, as the C++ stream operator prints it. -/
def segment_to_string (ps : path_segment) : String :=
  toString ps.length ++
    (match ps.ptype with
     | .MATCH => "M"
     | .INSERT => "I"
     | .DELETE => "D")

/-- Text of a whole alignment descriptor. -/
def cigar_to_string (apath : List path_segment) : String :=
  String.join (apath.map segment_to_string)

/-- Derived modifier state of an indel call. -/
structure indel_modifiers where
  gqx : Nat := 0
  filters : filter_set := {}
  cigar : List path_segment := []
  ploidy : List Nat := []
  is_overlap : Bool := false
deriving DecidableEq, Repr

/-- An indel call held in the indel buffer. -/
structure indel_info where
  pos : Int := 0
  ik : indel_key := {}
  dindel : starling_diploid_indel_core := {}
  iri : starling_indel_report_info := {}
  isri : starling_indel_sample_report_info := {}
  imod : indel_modifiers := {}
deriving DecidableEq, Repr

/-- The configuration options consulted by this translation unit. -/
structure starling_options where
  is_gvcf_min_gqx : Bool := false
  gvcf_min_gqx : Nat := 0
  is_gvcf_max_depth : Bool := false
  gvcf_max_depth : Nat := 0
  gvcf_block_max_nonref : ℚ := 0
  gvcf_block_label : String := "BLOCKAVG"

/-- Modelled from the spec: the non-variant block accumulator — run length,
a frozen copy of the first member as the block record, and the running
minimum of the members' GQX values. -/
structure gvcf_block_site_record where
  count : Nat := 0
  record : site_info := {}
  gqx_min : Option Nat := none

/-- One emitted output line: a site/block record, an indel record, or a raw
text line.  Each constructor corresponds to one output statement of the
translation unit; `render` below reproduces the exact byte stream. -/
inductive out_line where
  | site (chrom : String) (pos : Int) (ref : Char) (alt : String)
      (qual : String) (filters : filter_set) (info : String)
      (gt : String) (gqx : String) (was_block : Bool)
  | indel (chrom : String) (pos : Int) (refseq : String) (alts : List String)
      (qual : Nat) (filters : filter_set) (cigars : List String)
      (gt : String) (gqx : Nat)
  | raw (s : String)
deriving DecidableEq, Repr

/-- Is this output line an indel record? -/
def is_indel_line : out_line → Bool
  | .indel _ _ _ _ _ _ _ _ _ => true
  | _ => false

/-- Is this output line a compressed-block record? -/
def is_block_line : out_line → Bool
  | .site _ _ _ _ _ _ _ _ _ b => b
  | _ => false

/-- Is this output line a site or block record? -/
def is_site_line : out_line → Bool
  | .site _ _ _ _ _ _ _ _ _ _ => true
  | _ => false

/-- Starting position of a record line (raw lines have none). -/
def line_pos : out_line → Option Int
  | .site _ p _ _ _ _ _ _ _ _ => some p
  | .indel _ p _ _ _ _ _ _ _ => some p
  | .raw _ => none

/-- Alt-allele list of an indel record line. -/
def line_alts : out_line → List String
  | .indel _ _ _ a _ _ _ _ _ => a
  | _ => []

/-- Filter flags of an indel record line. -/
def line_filters : out_line → filter_set
  | .indel _ _ _ _ _ f _ _ _ => f
  | .site _ _ _ _ _ f _ _ _ _ => f
  | .raw _ => {}

/-- Quality of an indel record line. -/
def line_qual : out_line → Option Nat
  | .indel _ _ _ _ q _ _ _ _ => some q
  | _ => none

/-- Cigar texts of an indel record line. -/
def line_cigars : out_line → List String
  | .indel _ _ _ _ _ _ c _ _ => c
  | _ => []

/-- Exact text of one output line, reproducing the stream-insertion sequence
of the C++ (note the semicolon the code inserts between the site genotype
and its quality, and the raw debug line). -/
def render : out_line → String
  | .site chrom pos ref alt qual filters info gt gqx _ =>
      chrom ++ "\t" ++ toString (pos + 1) ++ "\t.\t" ++ String.singleton ref ++
      "\t" ++ alt ++ "\t" ++ qual ++ "\t" ++ write_filters filters ++ "\t" ++
      info ++ "\t" ++ "GT:GQX" ++ "\t" ++ gt ++ ";" ++ gqx ++ "\n"
  | .indel chrom pos refseq alts qual filters cigars gt gqx =>
      chrom ++ "\t" ++ toString pos ++ "\t.\t" ++ refseq ++ "\t" ++
      String.intercalate "," alts ++ "\t" ++ toString qual ++ "\t" ++
      write_filters filters ++ "\t" ++ "CIGAR=" ++
      String.intercalate "," cigars ++ "\t" ++ "GT:GQX" ++ "\t" ++
      gt ++ ":" ++ toString gqx ++ "\n"
  | .raw s => s ++ "\n"

/-- The aggregator state: options, report range, reference accessor,
chromosome label, the two buffers with the group right-bound, the open
block, the position cursor, the synthesized empty site, and the emitted
output lines. -/
structure gvcf_aggregator where
  opt : starling_options
  report_begin : Int
  report_end : Int
  ref : Int → Char
  chrom : String
  indel_end_pos : Int := 0
  indel_buffer : List indel_info := []
  site_buffer : List site_info := []
  block : gvcf_block_site_record := {}
  head_pos : Int
  empty_site : site_info := {}
  output : List out_line := []

/-- Reference substring accessor (`reference_contig_segment::get_substring`),
modelled from the spec as an arbitrary-substring lookup. -/
def get_substring (r : Int → Char) (start len : Int) : String :=
  String.mk ((List.range len.toNat).map fun i => r (start + i))

/-- The C++ `set_site_gt`: copy one result set's genotype and quality into
the site modifiers. -/
def set_site_gt (rs : result_set) (sm : site_modifiers) : site_modifiers :=
  { sm with max_gt := rs.max_gt, gqx := rs.max_gt_qphred }

/-- The C++ `set_site_filters`: quality-floor and depth-ceiling filters. -/
def set_site_filters (opt : starling_options) (si : site_info) : site_info :=
  let si :=
    if opt.is_gvcf_min_gqx && decide (si.smod.gqx < opt.gvcf_min_gqx) then
      { si with smod.filters := si.smod.filters.set .LowGQX }
    else si
  if opt.is_gvcf_max_depth &&
      decide (si.n_used_calls + si.n_unused_calls > opt.gvcf_max_depth) then
    { si with smod.filters := si.smod.filters.set .HighDepth }
  else si

/-- The C++ `add_site_modifiers`: reset the modifiers, derive coverage and
unknown-base flags, choose genotype and GQX from the two models, then apply
the site filters. -/
def add_site_modifiers (opt : starling_options) (si : site_info) : site_info :=
  let sm : site_modifiers :=
    { is_unknown := si.ref == 'N',
      is_used_covered := si.n_used_calls != 0,
      is_covered := si.n_used_calls != 0 || si.n_unused_calls != 0 }
  let sm :=
    if sm.is_unknown then
      { sm with gqx := 0, max_gt := {} }
    else if si.dgt.genome.max_gt != si.dgt.poly.max_gt then
      { sm with gqx := 0, max_gt := si.dgt.genome.max_gt }
    else if si.dgt.genome.max_gt_qphred < si.dgt.poly.max_gt_qphred then
      set_site_gt si.dgt.genome sm
    else
      set_site_gt si.dgt.poly sm
  set_site_filters opt { si with smod := sm }

/-- The C++ `is_het_indel`. -/
def is_het_indel (d : starling_diploid_indel_core) : Bool :=
  d.max_gt == .HET

/-- The C++ `is_no_indel`. -/
def is_no_indel (d : starling_diploid_indel_core) : Bool :=
  d.max_gt == .NOINDEL

/-- The C++ `is_simple_indel_overlap`: exactly two members, both chosen
heterozygous. -/
def is_simple_indel_overlap (buffer : List indel_info) : Bool :=
  match buffer with
  | [a, b] => is_het_indel a.dindel && is_het_indel b.dindel
  | _ => false

/-- The C++ `get_hap_cigar`: leading match, delete, insert, trailing match,
each segment only when nonzero. -/
def get_hap_cigar (ik : indel_key) (lead trail : Nat) : List path_segment :=
  (if lead ≠ 0 then [⟨.MATCH, lead⟩] else []) ++
  (if ik.delete_length ≠ 0 then [⟨.DELETE, ik.delete_length⟩] else []) ++
  (if ik.insert_length ≠ 0 then [⟨.INSERT, ik.insert_length⟩] else []) ++
  (if trail ≠ 0 then [⟨.MATCH, trail⟩] else [])

/-- Increment one entry of a natural-number list at a signed index; indices
outside the list (in particular negative ones, which the C++ guards with
`offset>=0`) leave the list unchanged. -/
def incr_at : List Nat → Int → List Nat
  | [], _ => []
  | x :: xs, i => if i = 0 then (x + 1) :: xs else x :: incr_at xs (i - 1)

/-- The inner MATCH loop of `add_cigar_to_ploidy`: increment `len` positions
starting at the signed offset, advancing the offset after each one. -/
def bump_match (p : List Nat) (off : Int) : Nat → List Nat
  | 0 => p
  | n + 1 => bump_match (incr_at p off) (off + 1) n

/-- The segment loop of `add_cigar_to_ploidy`, threading the signed offset
which starts at -1 (the leading anchor base lies before the vector). -/
def acp_aux : List path_segment → Int → List Nat → List Nat
  | [], _, p => p
  | ps :: rest, off, p =>
    match ps.ptype with
    | .MATCH => acp_aux rest (off + ps.length) (bump_match p off ps.length)
    | .DELETE => acp_aux rest (off + ps.length) p
    | .INSERT => acp_aux rest off p

/-- The C++ `add_cigar_to_ploidy`: fold one haplotype's descriptor into the
shared per-position ploidy vector. -/
def add_cigar_to_ploidy (apath : List path_segment) (p : List Nat) : List Nat :=
  acp_aux apath (-1) p

/-- Declarative reading of the spec's ploidy rule: does the descriptor place
a match segment over vector index `k`, walking the reference cursor from
signed offset `off` (match covers and advances, delete advances without
covering, insert consumes no reference positions)? -/
def cigar_match_covers : List path_segment → Int → Nat → Bool
  | [], _, _ => false
  | ps :: rest, off, k =>
    match ps.ptype with
    | .MATCH =>
        (decide (off ≤ (k : Int)) && decide ((k : Int) < off + ps.length)) ||
        cigar_match_covers rest (off + ps.length) k
    | .DELETE => cigar_match_covers rest (off + ps.length) k
    | .INSERT => cigar_match_covers rest off k

/-- The C++ `add_indel_modifiers`: GQX is the min of the indel quality and
genotype quality; then quality-floor and depth-ceiling filters. -/
def add_indel_modifiers (opt : starling_options) (ii : indel_info) : indel_info :=
  let ii := { ii with imod.gqx := min ii.dindel.indel_qphred ii.dindel.max_gt_qphred }
  let ii :=
    if opt.is_gvcf_min_gqx && decide (ii.imod.gqx < opt.gvcf_min_gqx) then
      { ii with imod.filters := ii.imod.filters.set .LowGQX }
    else ii
  if opt.is_gvcf_max_depth && decide (ii.isri.depth > opt.gvcf_max_depth) then
    { ii with imod.filters := ii.imod.filters.set .HighDepth }
  else ii

/-- The C++ `is_site_record_blockable`: a site qualifies for block
compression only when it is not a variant call and (for a known reference
base) its reference-supporting evidence fraction is high enough.  The
`double` arithmetic is modelled exactly over `ℚ`. -/
def is_site_record_blockable (opt : starling_options) (si : site_info) : Bool :=
  if si.dgt.is_snp then false
  else if si.ref != 'N' then
    let reffrac : ℚ := (si.known_counts si.dgt.ref_gt : ℚ) / (si.n_used_calls : ℚ)
    !(decide (reffrac + opt.gvcf_block_max_nonref ≤ 1))
  else true

/-- Modelled from the spec: GQX applies to a site record when the site is
covered by used evidence and its reference base is known. -/
def site_is_gqx (si : site_info) : Bool :=
  si.smod.is_used_covered && !si.smod.is_unknown

/-- Modelled from the spec: the quality column applies when the reference
base is known, the site is covered, and the record is not a block. -/
def site_is_qual (si : site_info) : Bool :=
  !si.smod.is_unknown && si.smod.is_used_covered && !si.smod.is_block

/-- Modelled from the spec: allele index of a base relative to the
reference allele in the comma-joined alt list order. -/
def allele_index (g : diploid_gt) (r a : Fin 4) : Nat :=
  if a = r then 0
  else 1 + ((List.finRange 4).filter
      (fun b => decide (b ≠ r) && DIGT_expect2 b g && decide (b < a))).length

/-- Modelled from the spec: the rendered genotype of a site record; an
overriding modified genotype wins, an unknown base renders "./.", otherwise
the diploid genotype is rendered relative to the reference allele. -/
def site_get_gt (si : site_info) : String :=
  match si.smod.modified_gt with
  | .UNKNOWN => "."
  | .ZERO => "0"
  | .ONE => "1"
  | .NONE =>
    if si.smod.is_unknown then "./."
    else
      let i := allele_index si.smod.max_gt si.dgt.ref_gt si.smod.max_gt.a1
      let j := allele_index si.smod.max_gt si.dgt.ref_gt si.smod.max_gt.a2
      toString (min i j) ++ "/" ++ toString (max i j)

/-- Modelled from the spec: the rendered genotype of an indel record. -/
def indel_get_gt (ii : indel_info) : String :=
  if ii.imod.is_overlap then "1/2"
  else
    match ii.dindel.max_gt with
    | .HET => "0/1"
    | .HOM => "1/1"
    | .NOINDEL => "0/0"

/-- Modelled from the spec: per-position ploidy lookup on the finalized
group — an overlap record consults the shared vector; a single indel
contributes one haplotype when heterozygous and zero when homozygous. -/
def indel_get_ploidy (ii : indel_info) (offset : Nat) : Nat :=
  if ii.imod.is_overlap then (ii.imod.ploidy.get? offset).getD 0
  else
    match ii.dindel.max_gt with
    | .HET => 1
    | _ => 0

/-- The C++ `print_vcf_alt`: the non-reference bases carried by the
genotype, in base order, comma-joined; "." when there are none. -/
def print_vcf_alt (g : diploid_gt) (ref_gt : Fin 4) : String :=
  let l := (List.finRange 4).filter fun b => b != ref_gt && DIGT_expect2 b g
  if l.isEmpty then "."
  else String.intercalate "," (l.map fun b => String.singleton (id_to_base b))

/-- The C++ `gvcf_aggregator::write_site_record`, emitting one site or block
line.  The block count and minimum GQX are read from the open block when the
record is a block record, exactly as the C++ reads `_block`. -/
def write_site_record (ag : gvcf_aggregator) (si : site_info) : gvcf_aggregator :=
  let altText :=
    if si.smod.is_unknown || si.smod.is_block then "."
    else print_vcf_alt si.smod.max_gt si.dgt.ref_gt
  let qualText :=
    if site_is_qual si then toString si.dgt.genome.snp_qphred else "."
  let infoText :=
    if si.smod.is_block then
      "END=" ++ toString (si.pos + ag.block.count) ++ ";" ++ ag.opt.gvcf_block_label
    else "."
  let gqxText :=
    if site_is_gqx si then
      if si.smod.is_block then
        match ag.block.gqx_min with
        | some m => toString m
        | none => "."
      else toString si.smod.gqx
    else "."
  { ag with output := ag.output ++
      [.site ag.chrom si.pos si.ref altText qualText si.smod.filters infoText
        (site_get_gt si) gqxText si.smod.is_block] }

/-- Modelled from the spec: block membership test — an empty block accepts
any site; otherwise the site must carry the same chosen-genotype/filter
signature as the block's first member and immediately follow the block's
current end. -/
def block_test (b : gvcf_block_site_record) (si : site_info) : Bool :=
  b.count == 0 ||
  (b.record.smod.max_gt == si.smod.max_gt &&
   b.record.smod.modified_gt == si.smod.modified_gt &&
   b.record.smod.filters == si.smod.filters &&
   b.record.smod.is_unknown == si.smod.is_unknown &&
   b.record.smod.is_used_covered == si.smod.is_used_covered &&
   decide (b.record.pos + (b.count : Int) == si.pos))

/-- Modelled from the spec: join a site into the open block — the first
member is frozen as the block record (marked as a block), the run length
grows by one, and the GQX minimum is folded when the site carries a GQX. -/
def block_join (b : gvcf_block_site_record) (si : site_info) : gvcf_block_site_record :=
  if b.count = 0 then
    { count := 1,
      record := { si with smod := { si.smod with is_block := true } },
      gqx_min := if site_is_gqx si then some si.smod.gqx else none }
  else
    let ng :=
      match b.gqx_min, (if site_is_gqx si then some si.smod.gqx else none) with
      | some m, some g => some (min m g)
      | some m, none => some m
      | none, o => o
    { b with count := b.count + 1, gqx_min := ng }

/-- Modelled from the spec: `gvcf_aggregator::write_block_site_record` —
emit the open block, if any, as one record and reset the accumulator. -/
def write_block_site_record (ag : gvcf_aggregator) : gvcf_aggregator :=
  if ag.block.count = 0 then ag
  else
    let ag' := write_site_record ag ag.block.record
    { ag' with block := {} }

/-- The C++ `gvcf_aggregator::queue_site_record`.  Note the translation unit
has no early return after emitting a non-blockable site: control falls
through to the block test and join below. -/
def queue_site_record (ag : gvcf_aggregator) (si : site_info) : gvcf_aggregator :=
  let ag :=
    if !is_site_record_blockable ag.opt si then
      write_site_record (write_block_site_record ag) si
    else ag
  let ag := if !block_test ag.block si then write_block_site_record ag else ag
  { ag with block := block_join ag.block si }

/-- The C++ `gvcf_aggregator::modify_single_indel_record`. -/
def modify_single_indel_record (ag : gvcf_aggregator) : Option gvcf_aggregator :=
  match ag.indel_buffer with
  | [ii] =>
    let ii := { ii with imod.cigar := get_hap_cigar ii.ik 1 0 }
    some { ag with indel_buffer := [add_indel_modifiers ag.opt ii] }
  | _ => none

/-- The C++ `modify_indel_overlap_site`: inherit the bitwise AND of the
site's and indel's filters, then apply the ploidy override; any ploidy
other than 0 or 1 is a fatal invariant violation (`assert(0)`), modelled as
`none`. -/
def modify_indel_overlap_site (opt : starling_options) (ii : indel_info)
    (ploidy : Nat) (si : site_info) : Option site_info :=
  let si := { si with smod.filters := si.smod.filters.land ii.imod.filters }
  if ploidy = 1 then
    let si := { si with
      dgt.genome.snp_qphred := min si.dgt.genome.snp_qphred ii.dindel.indel_qphred,
      smod.gqx := min si.smod.gqx ii.dindel.max_gt_qphred }
    let si :=
      if DIGT_is_het si.smod.max_gt then
        { si with smod.filters := si.smod.filters.set .SiteConflict,
                  smod.modified_gt := .UNKNOWN }
      else if si.smod.max_gt == DIGT_hom si.dgt.ref_gt then
        { si with smod.modified_gt := .ZERO }
      else
        { si with smod.modified_gt := .ONE }
    some (set_site_filters opt si)
  else if ploidy = 0 then
    let si := { si with smod.modified_gt := .UNKNOWN, smod.is_zero_ploidy := true }
    some (set_site_filters opt si)
  else none

/-- The C++ `modify_indel_conflict_site`: mark the site with the
indel-conflict filter only. -/
def modify_indel_conflict_site (si : site_info) : site_info :=
  { si with smod.filters := si.smod.filters.set .IndelConflict }

/-- The C++ `gvcf_aggregator::modify_overlap_indel_record`: accumulate the
shared extended reference sequence, minimum qualities and the per-position
ploidy vector onto the first member, and build each haplotype's padded alt
sequence and alignment descriptor. -/
def modify_overlap_indel_record (ag : gvcf_aggregator) : Option gvcf_aggregator :=
  match ag.indel_buffer with
  | [a0, b0] =>
    let indel_begin_pos : Int := a0.pos - 1
    let a1 := { a0 with
      imod.is_overlap := true,
      iri.vcf_ref_seq :=
        get_substring ag.ref indel_begin_pos (ag.indel_end_pos - indel_begin_pos),
      imod.ploidy := List.replicate (ag.indel_end_pos - a0.pos).toNat 0 }
    let lead0 := get_substring ag.ref indel_begin_pos ((a1.pos - indel_begin_pos) - 1)
    let trail_len0 : Int := ag.indel_end_pos - a1.ik.right_pos
    let trail0 := get_substring ag.ref (ag.indel_end_pos - trail_len0) trail_len0
    let a2 := { a1 with
      iri.vcf_indel_seq := lead0 ++ a1.iri.vcf_indel_seq ++ trail0,
      imod.cigar := get_hap_cigar a1.ik (lead0.length + 1) trail0.length }
    let a3 := { a2 with imod.ploidy := add_cigar_to_ploidy a2.imod.cigar a2.imod.ploidy }
    let a4 := { a3 with
      dindel.indel_qphred :=
        if a3.dindel.indel_qphred > b0.dindel.indel_qphred then
          b0.dindel.indel_qphred
        else a3.dindel.indel_qphred,
      dindel.max_gt_qphred :=
        if a3.dindel.max_gt_qphred > b0.dindel.max_gt_qphred then
          b0.dindel.max_gt_qphred
        else a3.dindel.max_gt_qphred }
    let lead1 := get_substring ag.ref indel_begin_pos ((b0.pos - indel_begin_pos) - 1)
    let trail_len1 : Int := ag.indel_end_pos - b0.ik.right_pos
    let trail1 := get_substring ag.ref (ag.indel_end_pos - trail_len1) trail_len1
    let b1 := { b0 with
      iri.vcf_indel_seq := lead1 ++ b0.iri.vcf_indel_seq ++ trail1,
      imod.cigar := get_hap_cigar b0.ik (lead1.length + 1) trail1.length }
    let a5 := { a4 with imod.ploidy := add_cigar_to_ploidy b1.imod.cigar a4.imod.ploidy }
    some { ag with indel_buffer := [add_indel_modifiers ag.opt a5, b1] }
  | _ => none

/-- One member's adjustment on the conflict path: direct descriptor,
indel-conflict filter, then the shared indel modifiers. -/
def conflict_adjust (opt : starling_options) (ii : indel_info) : indel_info :=
  let ii := { ii with imod.cigar := get_hap_cigar ii.ik 1 0 }
  let ii := { ii with imod.filters := ii.imod.filters.set .IndelConflict }
  add_indel_modifiers opt ii

/-- The C++ `gvcf_aggregator::modify_conflict_indel_record` (asserts at
least two members). -/
def modify_conflict_indel_record (ag : gvcf_aggregator) : Option gvcf_aggregator :=
  if ag.indel_buffer.length ≤ 1 then none
  else some { ag with indel_buffer := ag.indel_buffer.map (conflict_adjust ag.opt) }

/-- The indel record line built by `write_indel_record` from the buffer tail
starting at the write index: an overlap record also takes the following
member's alt and descriptor. -/
def mk_indel_line (chrom : String) (group : List indel_info) : out_line :=
  match group with
  | [] => .raw ""
  | ii :: rest =>
    let members := ii :: (if ii.imod.is_overlap then rest.take 1 else [])
    .indel chrom ii.pos ii.iri.vcf_ref_seq
      (members.map fun m => m.iri.vcf_indel_seq)
      ii.dindel.indel_qphred ii.imod.filters
      (members.map fun m => cigar_to_string m.imod.cigar)
      (indel_get_gt ii) ii.imod.gqx

/-- The C++ `gvcf_aggregator::write_indel_record`: flush any open block,
then emit the record at the given write index (here: the buffer tail from
that index). -/
def write_indel_record (ag : gvcf_aggregator) (group : List indel_info) : gvcf_aggregator :=
  match group with
  | [] => ag
  | ii :: rest =>
    let ag := write_block_site_record ag
    { ag with output := ag.output ++ [mk_indel_line ag.chrom (ii :: rest)] }

/-- The emission merge loop of `process_overlaps`, fuelled so that it
reduces definitionally: indel and site records interleaved by position,
ties indel-first; on the conflict path one indel record per member,
otherwise a single (possibly combined) record consumes the whole indel
buffer.  Every step consumes at least one buffered element, so the fuel
supplied by `emit_loop` below never runs out. -/
def emit_fuel (conflict : Bool) : Nat → List indel_info → List site_info →
    gvcf_aggregator → gvcf_aggregator
  | _, [], [], ag => ag
  | 0, _, _, ag => ag
  | fuel + 1, [], s :: ss, ag =>
      emit_fuel conflict fuel [] ss (queue_site_record ag s)
  | fuel + 1, i :: irest, [], ag =>
      emit_fuel conflict fuel (if conflict then irest else []) []
        (write_indel_record ag (i :: irest))
  | fuel + 1, i :: irest, s :: ss, ag =>
      if i.pos ≤ s.pos then
        emit_fuel conflict fuel (if conflict then irest else []) (s :: ss)
          (write_indel_record ag (i :: irest))
      else
        emit_fuel conflict fuel (i :: irest) ss (queue_site_record ag s)

/-- The emission merge loop of `process_overlaps`. -/
def emit_loop (conflict : Bool) (indels : List indel_info)
    (sites : List site_info) (ag : gvcf_aggregator) : gvcf_aggregator :=
  emit_fuel conflict (indels.length + sites.length) indels sites ag

/-- Sequential fallible map, mirroring the in-place site adjustment loop. -/
def opt_map_list (f : α → Option β) : List α → Option (List β)
  | [] => some []
  | x :: xs => do
    let y ← f x
    let ys ← opt_map_list f xs
    some (y :: ys)

/-- The per-site adjustment step of `process_overlaps`: a negative
site-buffer offset is an assertion failure; otherwise the site is adjusted
by the finalized group's ploidy, or only marked on the conflict path. -/
def overlap_site_step (opt : starling_options) (is_conflict : Bool)
    (first : indel_info) (si : site_info) : Option site_info :=
  if si.pos - first.pos < 0 then none
  else if !is_conflict then
    modify_indel_overlap_site opt first
      (indel_get_ploidy first (si.pos - first.pos).toNat) si
  else some (modify_indel_conflict_site si)

/-- The C++ `gvcf_aggregator::process_overlaps`: classify the pending group,
emit the size debug line, adjust the buffered sites, merge-emit, and reset
both buffers. -/
def process_overlaps (ag : gvcf_aggregator) : Option gvcf_aggregator :=
  if ag.indel_buffer.length = 0 then some ag
  else do
    let step : gvcf_aggregator × Bool ←
      if ag.indel_buffer.length = 1 then
        (modify_single_indel_record ag).map fun a => (a, false)
      else if is_simple_indel_overlap ag.indel_buffer then
        (modify_overlap_indel_record ag).map fun a => (a, false)
      else
        (modify_conflict_indel_record ag).map fun a => (a, true)
    let ag := step.1
    let is_conflict := step.2
    let ag := { ag with output := ag.output ++
        [out_line.raw ("INDEL_SIZE: " ++ toString ag.indel_buffer.length)] }
    match ag.indel_buffer with
    | [] => none
    | first :: rest => do
      let sites' ← opt_map_list (overlap_site_step ag.opt is_conflict first) ag.site_buffer
      let ag := { ag with site_buffer := sites' }
      let ag := emit_loop is_conflict (first :: rest) sites' ag
      some { ag with indel_buffer := [], site_buffer := [] }

/-- The C++ `gvcf_aggregator::add_site_internal`: advance the cursor, defer
the site while a group is pending and the site lies inside its span,
finalize the group first when the site has passed the span, and otherwise
route through the block compressor. -/
def add_site_internal (ag : gvcf_aggregator) (si : site_info) : Option gvcf_aggregator :=
  let ag := { ag with head_pos := si.pos + 1 }
  if ag.indel_buffer.length ≠ 0 then
    if si.pos ≥ ag.indel_end_pos then do
      let ag ← process_overlaps ag
      some (queue_site_record ag si)
    else
      some { ag with site_buffer := ag.site_buffer ++ [si] }
  else
    some (queue_site_record ag si)

/-- Modelled from the spec: the synthesized placeholder empty site at a
position. -/
def get_empty_site (ag : gvcf_aggregator) (p : Int) : site_info :=
  { ag.empty_site with pos := p }

/-- The loop of `skip_to_pos`, with fuel (the cursor strictly advances each
iteration, so the fuel chosen by `skip_to_pos` never runs out).  While a
group is pending, empty sites fill individual positions; afterwards one
empty site's block run length absorbs the remaining gap, and an empty open
block at that point is an assertion failure. -/
def skip_loop : Nat → gvcf_aggregator → Int → Option gvcf_aggregator
  | 0, ag, target => if ag.head_pos < target then none else some ag
  | fuel + 1, ag, target =>
    if ag.head_pos < target then do
      let ag' ← add_site_internal ag (get_empty_site ag ag.head_pos)
      if ag'.indel_buffer.length ≠ 0 then skip_loop fuel ag' target
      else if ag'.block.count = 0 then none
      else
        some { ag' with
          block.count := ag'.block.count + (target - ag'.head_pos).toNat,
          head_pos := target }
    else some ag

/-- The C++ `gvcf_aggregator::skip_to_pos`. -/
def skip_to_pos (ag : gvcf_aggregator) (target : Int) : Option gvcf_aggregator :=
  skip_loop ((target - ag.head_pos).toNat + 1) ag target

/-- The C++ `gvcf_aggregator::add_site`. -/
def gvcf_add_site (ag : gvcf_aggregator) (si : site_info) : Option gvcf_aggregator := do
  let ag ← skip_to_pos ag si.pos
  add_site_internal ag (add_site_modifiers ag.opt si)

/-- The C++ `gvcf_aggregator::add_indel`: breakpoint and no-indel calls are
rejected outright; an overlapping call extends the group right-bound to the
max, a non-overlapping call finalizes the pending group; then the call is
appended and the right-bound is set to this call's right boundary
(unconditionally, as in the translation unit). -/
def gvcf_add_indel (ag : gvcf_aggregator) (pos : Int) (ik : indel_key)
    (dindel : starling_diploid_indel_core) (iri : starling_indel_report_info)
    (isri : starling_indel_sample_report_info) : Option gvcf_aggregator :=
  if ik.is_bp then some ag
  else if is_no_indel dindel then some ag
  else do
    let ag ← skip_to_pos ag pos
    let ag ←
      if ag.indel_buffer.length ≠ 0 then
        if pos ≤ ag.indel_end_pos then
          some { ag with indel_end_pos := max ag.indel_end_pos ik.right_pos }
        else process_overlaps ag
      else some ag
    some { ag with
      indel_buffer := ag.indel_buffer ++ [⟨pos, ik, dindel, iri, isri, {}⟩],
      indel_end_pos := ik.right_pos }

/-- The constructor: cursor at the report begin, empty buffers, and the
empty-site template with its modifiers derived once. -/
def init_gvcf_aggregator (opt : starling_options) (rbegin rend : Int)
    (r : Int → Char) (chrom : String) : gvcf_aggregator :=
  { opt := opt, report_begin := rbegin, report_end := rend, ref := r,
    chrom := chrom, head_pos := rbegin,
    empty_site := add_site_modifiers opt {} }

/-- The destructor: skip to one past the report range end, then finalize any
pending overlap group.  (This is the complete body of the C++ destructor.) -/
def destroy_gvcf_aggregator (ag : gvcf_aggregator) : Option gvcf_aggregator := do
  let ag ← skip_to_pos ag (ag.report_end + 1)
  process_overlaps ag


/-- The conflict-path record lines produced by the emission loop: one line
per remaining member, each built from the buffer tail at its write index. -/
def conflict_lines (chrom : String) : List indel_info → List out_line
  | [] => []
  | i :: irest => mk_indel_line chrom (i :: irest) :: conflict_lines chrom irest

/-! ### Concrete scenarios used by the bug-exhibiting theorems and witnesses -/

/-- A configuration with both optional filters disabled and a block
max-nonref fraction of 1/5. -/
def opt0 : starling_options := { gvcf_block_max_nonref := 1/5 }

/-- An all-adenine reference. -/
def refA : Int → Char := fun _ => 'A'

/-- A heterozygous diploid indel genotype result. -/
def dind_het : starling_diploid_indel_core :=
  { max_gt := .HET, max_gt_qphred := 40, indel_qphred := 30 }

/-- End-of-stream scenario: report range [0,5], one heterozygous two-base
deletion at position 1 submitted, then the aggregator is destroyed. -/
def c1_run : Option gvcf_aggregator := do
  let ag ← gvcf_add_indel (init_gvcf_aggregator opt0 0 5 refA "chr1") 1
    { pos := 1, delete_length := 2 } dind_het
    { vcf_ref_seq := "AAA", vcf_indel_seq := "A" } { depth := 10 }
  destroy_gvcf_aggregator ag

/-- A non-blockable site: a heterozygous C→G variant call at position 0. -/
def si_snp : site_info :=
  { pos := 0, ref := 'C',
    dgt := { genome := { max_gt := ⟨1, 2⟩, max_gt_qphred := 50, snp_qphred := 60 },
             poly := { max_gt := ⟨1, 2⟩, max_gt_qphred := 45, snp_qphred := 55 },
             is_snp := true, ref_gt := 1 },
    n_used_calls := 10, known_counts := fun _ => 5 }

/-- Submitting the single non-blockable variant site into a fresh
aggregator. -/
def c2_run : Option gvcf_aggregator :=
  gvcf_add_site (init_gvcf_aggregator opt0 0 100 refA "chr1") si_snp

/-- Two overlapping heterozygous deletions: [10,100) then [50,60); the
second right boundary is smaller than the first. -/
def c3_run : Option gvcf_aggregator := do
  let ag ← gvcf_add_indel (init_gvcf_aggregator opt0 0 200 refA "chr1") 10
    { pos := 10, delete_length := 90 } dind_het
    { vcf_ref_seq := "R1", vcf_indel_seq := "A" } { depth := 10 }
  gvcf_add_indel ag 50 { pos := 50, delete_length := 10 } dind_het
    { vcf_ref_seq := "R2", vcf_indel_seq := "A" } { depth := 10 }

/-- First member of a two-heterozygous-deletion overlap group: [5,8). -/
def iiA : indel_info :=
  { pos := 5, ik := { pos := 5, delete_length := 3 },
    dindel := { max_gt := .HET, max_gt_qphred := 40, indel_qphred := 30 },
    iri := { vcf_ref_seq := "AAAA", vcf_indel_seq := "A" }, isri := { depth := 8 } }

/-- Second member of the overlap group: [6,8). -/
def iiB : indel_info :=
  { pos := 6, ik := { pos := 6, delete_length := 2 },
    dindel := { max_gt := .HET, max_gt_qphred := 50, indel_qphred := 20 },
    iri := { vcf_ref_seq := "AAA", vcf_indel_seq := "A" }, isri := { depth := 9 } }

/-- A reference-confirming site at position 6, deferred under the group. -/
def siW : site_info :=
  { pos := 6, ref := 'A',
    dgt := { genome := { max_gt := ⟨0, 0⟩, max_gt_qphred := 35, snp_qphred := 45 },
             poly := { max_gt := ⟨0, 0⟩, max_gt_qphred := 37, snp_qphred := 44 },
             is_snp := false, ref_gt := 0 },
    n_used_calls := 12, known_counts := fun b => if b = 0 then 12 else 0,
    smod := { max_gt := ⟨0, 0⟩, gqx := 35, is_used_covered := true, is_covered := true } }

/-- An aggregator holding the pending two-member heterozygous overlap group
with one deferred site. -/
def agW : gvcf_aggregator :=
  { opt := opt0, report_begin := 0, report_end := 100, ref := refA, chrom := "chr1",
    indel_end_pos := 8, indel_buffer := [iiA, iiB], site_buffer := [siW],
    head_pos := 8, empty_site := add_site_modifiers opt0 {} }

/-- A homozygous two-base deletion, pending as a one-member group. -/
def iiH : indel_info :=
  { pos := 3, ik := { pos := 3, delete_length := 2 },
    dindel := { max_gt := .HOM, max_gt_qphred := 35, indel_qphred := 25 },
    iri := { vcf_ref_seq := "AAA", vcf_indel_seq := "A" }, isri := { depth := 7 } }

/-- An aggregator about to finalize the one-member homozygous group. -/
def agH : gvcf_aggregator :=
  { opt := opt0, report_begin := 0, report_end := 100, ref := refA, chrom := "chr1",
    indel_end_pos := 5, indel_buffer := [iiH], site_buffer := [],
    head_pos := 5, empty_site := add_site_modifiers opt0 {} }

/-- First member of a three-deletion conflict group: [2,7), heterozygous. -/
def iiC1 : indel_info :=
  { pos := 2, ik := { pos := 2, delete_length := 5 },
    dindel := { max_gt := .HET, max_gt_qphred := 41, indel_qphred := 31 },
    iri := { vcf_ref_seq := "AAAAAA", vcf_indel_seq := "A" }, isri := { depth := 5 } }

/-- Second member: [3,5), homozygous. -/
def iiC2 : indel_info :=
  { pos := 3, ik := { pos := 3, delete_length := 2 },
    dindel := { max_gt := .HOM, max_gt_qphred := 42, indel_qphred := 32 },
    iri := { vcf_ref_seq := "AAA", vcf_indel_seq := "A" }, isri := { depth := 6 } }

/-- Third member: [4,7), heterozygous. -/
def iiC3 : indel_info :=
  { pos := 4, ik := { pos := 4, delete_length := 3 },
    dindel := { max_gt := .HET, max_gt_qphred := 43, indel_qphred := 33 },
    iri := { vcf_ref_seq := "AAAA", vcf_indel_seq := "A" }, isri := { depth := 7 } }

/-- A reference-confirming site at position 4, deferred under the conflict
group. -/
def siC : site_info :=
  { pos := 4, ref := 'A',
    dgt := { genome := { max_gt := ⟨0, 0⟩, max_gt_qphred := 30, snp_qphred := 40 },
             poly := { max_gt := ⟨0, 0⟩, max_gt_qphred := 33, snp_qphred := 39 },
             is_snp := false, ref_gt := 0 },
    n_used_calls := 9, known_counts := fun b => if b = 0 then 9 else 0,
    smod := { max_gt := ⟨0, 0⟩, gqx := 30, is_used_covered := true, is_covered := true } }

/-- An aggregator holding the pending three-member conflict group with one
deferred site. -/
def agC : gvcf_aggregator :=
  { opt := opt0, report_begin := 0, report_end := 100, ref := refA, chrom := "chr1",
    indel_end_pos := 7, indel_buffer := [iiC1, iiC2, iiC3], site_buffer := [siC],
    head_pos := 7, empty_site := add_site_modifiers opt0 {} }

/-- A site with a heterozygous chosen genotype and some pre-set filters,
used to witness the deferred-site adjustment. -/
def siX : site_info :=
  { pos := 6, ref := 'A',
    dgt := { genome := { max_gt := ⟨0, 1⟩, max_gt_qphred := 55, snp_qphred := 70 },
             poly := { max_gt := ⟨0, 1⟩, max_gt_qphred := 50, snp_qphred := 65 },
             is_snp := true, ref_gt := 0 },
    n_used_calls := 11, known_counts := fun b => if b = 0 then 6 else 5,
    smod := { max_gt := ⟨0, 1⟩, gqx := 50,
              filters := { lowGQX := true, highDepth := true },
              is_used_covered := true, is_covered := true } }

/-- An overlap-group first member carrying one filter, used to witness the
filter-intersection rule. -/
def iiX : indel_info :=
  { pos := 5, ik := { pos := 5, delete_length := 3 },
    dindel := { max_gt := .HET, max_gt_qphred := 28, indel_qphred := 22 },
    iri := { vcf_ref_seq := "AAAA", vcf_indel_seq := "A" }, isri := { depth := 8 },
    imod := { gqx := 22, filters := { lowGQX := true }, is_overlap := true,
              ploidy := [1, 1, 1] } }

/-- The filter set the spec prescribes for a deferred site adjusted under a
non-conflict group: first the bitwise AND of the site's filters with the
indel's filters, then the conditional site-conflict flag, then the re-run
quality-floor and depth-ceiling filters (stated from the claim's words, for
comparison with the code's behaviour). -/
def spec_inherited_filters (opt : starling_options) (ii : indel_info)
    (p : Nat) (si : site_info) : filter_set :=
  let base := si.smod.filters.land ii.imod.filters
  let g := if p = 1 then min si.smod.gqx ii.dindel.max_gt_qphred
           else si.smod.gqx
  let f1 := if p = 1 ∧ DIGT_is_het si.smod.max_gt = true then
      base.set VCF_FILTERS.SiteConflict else base
  let f2 := if opt.is_gvcf_min_gqx && decide (g < opt.gvcf_min_gqx) then
      f1.set VCF_FILTERS.LowGQX else f1
  if opt.is_gvcf_max_depth &&
      decide (si.n_used_calls + si.n_unused_calls > opt.gvcf_max_depth) then
    f2.set VCF_FILTERS.HighDepth else f2

/-! ### Theorems -/

/-- C1.  The claim says finalization at end-of-stream emits both any pending
indel group and any still-open block.  The destructor finalizes the pending
indel group, but never flushes the open block: in this run the final block
(three pending positions 3..5, block record position 3) survives
destruction unemitted — the only emitted records are the two already-flushed
blocks at positions 0 and 1 (the latter ending at position 2) and the indel
record, so positions 3..5 of the report range appear in no output record. -/
theorem c1_block_never_flushed_at_destruction :
    (c1_run.map fun ag => (ag.block.count, ag.block.record.pos,
      (ag.output.filter is_indel_line).length,
      (ag.output.filter is_block_line).length,
      ag.output.filterMap line_pos)) =
    some (3, 3, 1, 2, [0, 1, 1]) := by
  rfl

/-- C2.  The claim says a non-blockable site is emitted as its own record
and never joined into any compressed block.  The code emits the record but
then falls through (there is no early return) and joins the variant site
into the block: after submitting the single non-blockable site, the open
block holds exactly that variant site. -/
theorem c2_nonblockable_site_joined_into_block :
    (c2_run.map fun ag => (is_site_record_blockable ag.opt si_snp,
      ag.block.count, ag.block.record.dgt.is_snp, ag.block.record.pos,
      ag.output.map render)) =
    some (false, 1, true, 0,
      ["chr1\t1\t.\tC\tG\t60\t.\t.\tGT:GQX\t0/1;45\n"]) := by
  rfl

/-- C3.  The claim says that after every accepted indel submission, the
buffer right-bound equals the maximum member right boundary.  After the
second (overlapping) submission the code's unconditional final assignment
clobbers the max: the right-bound is 60 while the buffered members' right
boundaries are 100 and 60. -/
theorem c3_right_bound_clobbered :
    (c3_run.map fun ag => (ag.indel_end_pos,
      ag.indel_buffer.map fun i => i.ik.right_pos)) = some (60, [100, 60]) ∧
    (c3_run.map fun ag =>
      decide (∀ i ∈ ag.indel_buffer, i.ik.right_pos ≤ ag.indel_end_pos)) =
      some false := by
  exact ⟨rfl, rfl⟩

/-- C4.  The claim says every emitted line is exactly one tab-delimited
record and the site sample field is genotype, colon, quality.  The code
emits the raw debug line "INDEL_SIZE: 1" (no tab-delimited fields at all)
into the output stream, and renders every site sample field with a
semicolon between genotype and quality ("./.;." and "0;." below), while the
indel record uses the colon ("0/1:30"). -/
theorem c4_debug_line_and_semicolon_sample :
    (c1_run.map fun ag => ag.output.get? 0) =
      some (some (out_line.raw "INDEL_SIZE: 1")) ∧
    (c1_run.map fun ag => ag.output.map render) =
      some ["INDEL_SIZE: 1\n",
        "chr1\t1\t.\tN\t.\t.\t.\tEND=1;BLOCKAVG\tGT:GQX\t./.;.\n",
        "chr1\t1\t.\tAAA\tA\t30\t.\tCIGAR=1M2D\tGT:GQX\t0/1:30\n",
        "chr1\t2\t.\tN\t.\t.\t.\tEND=3;BLOCKAVG\tGT:GQX\t0;.\n"] ∧
    ((render (out_line.raw "INDEL_SIZE: 1")).toList.filter (· = '\t')).length
      = 0 := by
  exact ⟨rfl, rfl, rfl⟩

/-- C9 counterexample.  Read literally, the claim's condition "any member
whose chosen genotype is not heterozygous" covers a finalized one-member
homozygous group, and then demands every member be emitted with the
indel-conflict filter.  The code routes one-member groups through the
single-record path: the group finalizes into exactly one indel record
carrying no filter at all, in particular no indel-conflict filter. -/
theorem c9_single_hom_group_not_conflict_flagged :
    is_het_indel iiH.dindel = false ∧
    ((process_overlaps agH).map fun ag =>
        ag.output.filter is_indel_line) =
      some [out_line.indel "chr1" 3 "AAA" ["A"] 25 {} ["1M2D"] "1/1" 25] ∧
    ((process_overlaps agH).map fun ag =>
        (ag.output.filter is_indel_line).map
          fun l => (line_filters l).has VCF_FILTERS.IndelConflict) =
      some [false] := by
  exact ⟨rfl, rfl, rfl⟩

theorem incr_at_get? (p : List Nat) (i : Int) (k : Nat) :
    (incr_at p i).get? k =
      (p.get? k).map fun v => v + if i = (k : Int) then 1 else 0 := by
  induction p generalizing i k with
  | nil => simp [incr_at]
  | cons x xs ih =>
    simp only [incr_at]
    by_cases h : i = 0
    · rw [if_pos h]
      subst h
      cases k with
      | zero => simp
      | succ n =>
        simp only [List.get?_cons_succ]
        cases hp : xs.get? n with
        | none => simp only [hp, Option.map_none']
        | some v =>
          simp only [hp, Option.map_some', Option.some.injEq]
          rw [if_neg (by omega : ¬((0 : Int) = ((n + 1 : Nat) : Int)))]
          omega
    · rw [if_neg h]
      cases k with
      | zero =>
        simp only [List.get?_cons_zero, Option.map_some', Option.some.injEq]
        rw [if_neg (by omega : ¬(i = ((0 : Nat) : Int)))]
        omega
      | succ n =>
        simp only [List.get?_cons_succ, ih]
        cases hp : xs.get? n with
        | none => simp only [hp, Option.map_none']
        | some v =>
          simp only [hp, Option.map_some', Option.some.injEq]
          by_cases h2 : i - 1 = (n : Int)
          · rw [if_pos h2, if_pos (by omega : i = ((n + 1 : Nat) : Int))]
          · rw [if_neg h2, if_neg (by omega : ¬(i = ((n + 1 : Nat) : Int)))]

theorem incr_at_length (p : List Nat) (i : Int) :
    (incr_at p i).length = p.length := by
  induction p generalizing i with
  | nil => rfl
  | cons x xs ih =>
    by_cases h : i = 0 <;> simp [incr_at, h, ih]

theorem bump_match_get? (len : Nat) (p : List Nat) (off : Int) (k : Nat) :
    (bump_match p off len).get? k =
      (p.get? k).map fun v =>
        v + if off ≤ (k : Int) ∧ (k : Int) < off + len then 1 else 0 := by
  induction len generalizing p off with
  | zero =>
    cases hp : p.get? k with
    | none => simp only [bump_match, hp, Option.map_none']
    | some v =>
      simp only [bump_match, hp, Option.map_some', Option.some.injEq]
      rw [if_neg (by push_cast; omega :
        ¬(off ≤ (k : Int) ∧ (k : Int) < off + ((0 : Nat) : Int)))]
      omega
  | succ n ih =>
    show (bump_match (incr_at p off) (off + 1) n).get? k = _
    rw [ih, incr_at_get?]
    cases hp : p.get? k with
    | none => simp only [hp, Option.map_none']
    | some v =>
      simp only [hp, Option.map_some', Option.some.injEq]
      split_ifs <;> push_cast at * <;> omega

theorem bump_match_length (len : Nat) (p : List Nat) (off : Int) :
    (bump_match p off len).length = p.length := by
  induction len generalizing p off with
  | zero => rfl
  | succ n ih =>
    show (bump_match (incr_at p off) (off + 1) n).length = _
    rw [ih, incr_at_length]

theorem cigar_match_covers_le (apath : List path_segment) (off : Int) (k : Nat) :
    cigar_match_covers apath off k = true → off ≤ (k : Int) := by
  induction apath generalizing off with
  | nil => simp [cigar_match_covers]
  | cons ps rest ih =>
    cases hps : ps.ptype <;> simp only [cigar_match_covers, hps] <;> intro h
    · rcases (Bool.or_eq_true _ _).mp h with h' | h'
      · exact of_decide_eq_true ((Bool.and_eq_true _ _).mp h').1
      · have := ih (off + ps.length) h'
        omega
    · exact ih off h
    · have := ih (off + ps.length) h
      omega

theorem acp_aux_get? (apath : List path_segment) (off : Int) (p : List Nat)
    (k : Nat) :
    (acp_aux apath off p).get? k =
      (p.get? k).map fun v =>
        v + if cigar_match_covers apath off k then 1 else 0 := by
  induction apath generalizing off p with
  | nil => simp [acp_aux, cigar_match_covers]
  | cons ps rest ih =>
    cases hps : ps.ptype <;> simp only [acp_aux, cigar_match_covers, hps]
    · rw [ih, bump_match_get?]
      cases hp : p.get? k with
      | none => simp only [hp, Option.map_none']
      | some v =>
        simp only [hp, Option.map_some', Option.some.injEq]
        cases hc : cigar_match_covers rest (off + ps.length) k with
        | false =>
          simp only [hc, Bool.or_false, Bool.and_eq_true, decide_eq_true_eq,
            if_neg Bool.false_ne_true]
          split_ifs <;> omega
        | true =>
          have hle := cigar_match_covers_le rest (off + ps.length) k hc
          simp only [hc, Bool.or_true, if_true]
          split_ifs <;> omega
    · rw [ih]
    · rw [ih]

theorem acp_aux_length (apath : List path_segment) (off : Int) (p : List Nat) :
    (acp_aux apath off p).length = p.length := by
  induction apath generalizing off p with
  | nil => rfl
  | cons ps rest ih =>
    cases hps : ps.ptype <;> simp only [acp_aux, hps]
    · rw [ih, bump_match_length]
    · rw [ih]
    · rw [ih]

theorem replicate_zero_get? (n k : Nat) :
    (List.replicate n (0 : Nat)).get? k = if k < n then some 0 else none := by
  induction n generalizing k with
  | zero => simp
  | succ m ih =>
    cases k with
    | zero => simp [List.replicate]
    | succ j => simpa [List.replicate] using ih j

theorem aim_dindel (opt : starling_options) (ii : indel_info) :
    (add_indel_modifiers opt ii).dindel = ii.dindel := by
  simp only [add_indel_modifiers]
  split_ifs <;> rfl

theorem aim_pos (opt : starling_options) (ii : indel_info) :
    (add_indel_modifiers opt ii).pos = ii.pos := by
  simp only [add_indel_modifiers]
  split_ifs <;> rfl

theorem aim_iri (opt : starling_options) (ii : indel_info) :
    (add_indel_modifiers opt ii).iri = ii.iri := by
  simp only [add_indel_modifiers]
  split_ifs <;> rfl

theorem aim_cigar (opt : starling_options) (ii : indel_info) :
    (add_indel_modifiers opt ii).imod.cigar = ii.imod.cigar := by
  simp only [add_indel_modifiers]
  split_ifs <;> rfl

theorem aim_ploidy (opt : starling_options) (ii : indel_info) :
    (add_indel_modifiers opt ii).imod.ploidy = ii.imod.ploidy := by
  simp only [add_indel_modifiers]
  split_ifs <;> rfl

theorem aim_is_overlap (opt : starling_options) (ii : indel_info) :
    (add_indel_modifiers opt ii).imod.is_overlap = ii.imod.is_overlap := by
  simp only [add_indel_modifiers]
  split_ifs <;> rfl

theorem aim_gqx (opt : starling_options) (ii : indel_info) :
    (add_indel_modifiers opt ii).imod.gqx =
      min ii.dindel.indel_qphred ii.dindel.max_gt_qphred := by
  simp only [add_indel_modifiers]
  split_ifs <;> rfl

/-- C6.  On a finalized two-member heterozygous overlap group, the shared
per-position ploidy vector stored on the first member is sized to the
group's span (right-bound minus first member position) and each entry is
the sum, over the two members' alignment descriptors, of the indicator that
the descriptor places a match segment over that position (the descriptor
walk starts at offset -1 for the leading anchor base; delete segments
advance the walk without covering, insert segments consume no positions).
Hence a position deleted on one haplotype and matched on the other gets
ploidy 1, and a position matched by both gets ploidy 2. -/
theorem c6_overlap_ploidy_is_sum_of_match_indicators
    (ag : gvcf_aggregator) (a b : indel_info)
    (hb : ag.indel_buffer = [a, b])
    (ha : is_het_indel a.dindel = true)
    (hb2 : is_het_indel b.dindel = true) :
    ∃ A B, modify_overlap_indel_record ag = some { ag with indel_buffer := [A, B] } ∧
      A.imod.ploidy.length = (ag.indel_end_pos - a.pos).toNat ∧
      ∀ k : Nat, k < A.imod.ploidy.length →
        A.imod.ploidy.get? k = some
          ((if cigar_match_covers A.imod.cigar (-1) k then 1 else 0) +
           (if cigar_match_covers B.imod.cigar (-1) k then 1 else 0)) := by
  simp only [modify_overlap_indel_record, hb]
  refine ⟨_, _, rfl, ?_, ?_⟩
  · simp only [aim_ploidy, add_cigar_to_ploidy, acp_aux_length,
      List.length_replicate]
  · intro k hk
    simp only [aim_ploidy, aim_cigar, add_cigar_to_ploidy, acp_aux_length,
      List.length_replicate] at hk ⊢
    rw [acp_aux_get?, acp_aux_get?, replicate_zero_get?, if_pos hk]
    simp only [Option.map_some', Option.some.injEq]
    omega

theorem wsr_chrom (ag : gvcf_aggregator) (si : site_info) :
    (write_site_record ag si).chrom = ag.chrom := rfl

theorem wbsr_chrom (ag : gvcf_aggregator) :
    (write_block_site_record ag).chrom = ag.chrom := by
  unfold write_block_site_record
  split <;> rfl

theorem qsr_chrom (ag : gvcf_aggregator) (si : site_info) :
    (queue_site_record ag si).chrom = ag.chrom := by
  simp only [queue_site_record]
  split_ifs <;> simp only [wsr_chrom, wbsr_chrom]

theorem wir_chrom (ag : gvcf_aggregator) (g : List indel_info) :
    (write_indel_record ag g).chrom = ag.chrom := by
  cases g with
  | nil => rfl
  | cons i rest => simp only [write_indel_record, wbsr_chrom]

theorem wsr_no_indel (ag : gvcf_aggregator) (si : site_info) :
    ((write_site_record ag si).output).filter is_indel_line =
      ag.output.filter is_indel_line := by
  simp [write_site_record, List.filter_append, is_indel_line]

theorem wbsr_no_indel (ag : gvcf_aggregator) :
    ((write_block_site_record ag).output).filter is_indel_line =
      ag.output.filter is_indel_line := by
  unfold write_block_site_record
  split
  · rfl
  · simp only [wsr_no_indel]

theorem qsr_no_indel (ag : gvcf_aggregator) (si : site_info) :
    ((queue_site_record ag si).output).filter is_indel_line =
      ag.output.filter is_indel_line := by
  simp only [queue_site_record]
  split_ifs <;> simp only [wsr_no_indel, wbsr_no_indel]

theorem mk_indel_line_is_indel (c : String) (i : indel_info) (rest : List indel_info) :
    is_indel_line (mk_indel_line c (i :: rest)) = true := by
  simp [mk_indel_line, is_indel_line]

theorem wir_filter (ag : gvcf_aggregator) (i : indel_info) (rest : List indel_info) :
    ((write_indel_record ag (i :: rest)).output).filter is_indel_line =
      ag.output.filter is_indel_line ++ [mk_indel_line ag.chrom (i :: rest)] := by
  simp only [write_indel_record, wbsr_chrom]
  simp [List.filter_append, wbsr_no_indel, mk_indel_line_is_indel, wbsr_chrom]

/-- With an empty indel list, the emission loop emits no indel record and
preserves the chromosome label. -/
theorem emit_fuel_nil_indels (c : Bool) : ∀ (fuel : Nat) (ss : List site_info)
    (ag : gvcf_aggregator), ss.length ≤ fuel →
    ((emit_fuel c fuel [] ss ag).output).filter is_indel_line =
        ag.output.filter is_indel_line ∧
      (emit_fuel c fuel [] ss ag).chrom = ag.chrom := by
  intro fuel
  induction fuel with
  | zero =>
    intro ss ag hf
    have : ss = [] := List.length_eq_zero.mp (Nat.le_zero.mp hf)
    subst this
    exact ⟨rfl, rfl⟩
  | succ f ih =>
    intro ss ag hf
    cases ss with
    | nil => exact ⟨rfl, rfl⟩
    | cons s ss =>
      have hf' : ss.length ≤ f := by simpa using hf
      obtain ⟨h1, h2⟩ := ih ss (queue_site_record ag s) hf'
      refine ⟨?_, ?_⟩
      · show ((emit_fuel c f [] ss (queue_site_record ag s)).output).filter
            is_indel_line = _
        rw [h1, qsr_no_indel]
      · show (emit_fuel c f [] ss (queue_site_record ag s)).chrom = _
        rw [h2, qsr_chrom]

/-- On the non-conflict path the emission loop writes the (possibly
combined) indel record exactly once, wherever the position comparison
places it among the sites. -/
theorem emit_fuel_overlap_once (i : indel_info) (irest : List indel_info) :
    ∀ (fuel : Nat) (ss : List site_info) (ag : gvcf_aggregator),
    (i :: irest).length + ss.length ≤ fuel →
    ((emit_fuel false fuel (i :: irest) ss ag).output).filter is_indel_line =
      ag.output.filter is_indel_line ++ [mk_indel_line ag.chrom (i :: irest)] := by
  intro fuel
  induction fuel with
  | zero =>
    intro ss ag hf
    simp at hf
  | succ f ih =>
    intro ss ag hf
    cases ss with
    | nil =>
      show ((emit_fuel false f [] [] (write_indel_record ag (i :: irest))).output).filter
          is_indel_line = _
      have hnil : ∀ (ag' : gvcf_aggregator),
          emit_fuel false f [] [] ag' = ag' := by
        intro ag'
        cases f <;> rfl
      rw [hnil, wir_filter]
    | cons s ss =>
      show ((if i.pos ≤ s.pos then
          emit_fuel false f [] (s :: ss) (write_indel_record ag (i :: irest))
        else
          emit_fuel false f (i :: irest) ss (queue_site_record ag s)).output).filter
          is_indel_line = _
      split
      · obtain ⟨h1, _⟩ := emit_fuel_nil_indels false f (s :: ss)
          (write_indel_record ag (i :: irest)) (by simp at hf ⊢; omega)
        rw [h1, wir_filter]
      · rw [ih ss (queue_site_record ag s) (by simp at hf ⊢; omega),
          qsr_no_indel, qsr_chrom]

/-- On the conflict path the emission loop writes one record per remaining
member, in member order, interleaved with the sites. -/
theorem emit_fuel_conflict_each : ∀ (fuel : Nat) (indels : List indel_info)
    (ss : List site_info) (ag : gvcf_aggregator),
    indels.length + ss.length ≤ fuel →
    ((emit_fuel true fuel indels ss ag).output).filter is_indel_line =
        ag.output.filter is_indel_line ++ conflict_lines ag.chrom indels ∧
      (emit_fuel true fuel indels ss ag).chrom = ag.chrom := by
  intro fuel
  induction fuel with
  | zero =>
    intro indels ss ag hf
    have h1 : indels = [] := List.length_eq_zero.mp (by omega)
    have h2 : ss = [] := List.length_eq_zero.mp (by omega)
    subst h1; subst h2
    refine ⟨?_, rfl⟩
    show List.filter is_indel_line ag.output = _
    simp [conflict_lines]
  | succ f ih =>
    intro indels ss ag hf
    cases indels with
    | nil =>
      obtain ⟨h1, h2⟩ := emit_fuel_nil_indels true (f + 1) ss ag (by simpa using hf)
      exact ⟨by rw [h1]; simp [conflict_lines], h2⟩
    | cons i irest =>
      cases ss with
      | nil =>
        have hstep : emit_fuel true (f + 1) (i :: irest) [] ag =
            emit_fuel true f irest [] (write_indel_record ag (i :: irest)) := rfl
        rw [hstep]
        obtain ⟨h1, h2⟩ := ih irest [] (write_indel_record ag (i :: irest))
          (by simp at hf ⊢; omega)
        constructor
        · rw [h1, wir_filter, wir_chrom, conflict_lines, List.append_assoc,
            List.singleton_append]
        · rw [h2, wir_chrom]
      | cons s ss =>
        have hstep : emit_fuel true (f + 1) (i :: irest) (s :: ss) ag =
            if i.pos ≤ s.pos then
              emit_fuel true f irest (s :: ss) (write_indel_record ag (i :: irest))
            else
              emit_fuel true f (i :: irest) ss (queue_site_record ag s) := rfl
        rw [hstep]
        by_cases hpos : i.pos ≤ s.pos
        · simp only [if_pos hpos]
          obtain ⟨h1, h2⟩ := ih irest (s :: ss) (write_indel_record ag (i :: irest))
            (by simp at hf ⊢; omega)
          constructor
          · rw [h1, wir_filter, wir_chrom, conflict_lines, List.append_assoc,
              List.singleton_append]
          · rw [h2, wir_chrom]
        · simp only [if_neg hpos]
          obtain ⟨h1, h2⟩ := ih (i :: irest) ss (queue_site_record ag s)
            (by simp at hf ⊢; omega)
          constructor
          · rw [h1, qsr_no_indel, qsr_chrom]
          · rw [h2, qsr_chrom]

/-- C5.  When a group holding exactly two heterozygous indels finalizes
(successfully), exactly one combined indel record is appended to the
output: its alt sequences and alignment descriptors are the two members'
(comma-joined on rendering), its quality and indel genotype quality are the
minima of the corresponding member values, its GQX is the min of those two
minima, and its genotype renders as "1/2". -/
theorem c5_two_het_overlap_single_combined_record
    (ag ag' : gvcf_aggregator) (a b : indel_info)
    (hb : ag.indel_buffer = [a, b])
    (ha : is_het_indel a.dindel = true)
    (hb2 : is_het_indel b.dindel = true)
    (h : process_overlaps ag = some ag') :
    ∃ A B,
      modify_overlap_indel_record ag = some { ag with indel_buffer := [A, B] } ∧
      (ag'.output).filter is_indel_line =
        (ag.output).filter is_indel_line ++ [mk_indel_line ag.chrom [A, B]] ∧
      mk_indel_line ag.chrom [A, B] = out_line.indel ag.chrom a.pos
        A.iri.vcf_ref_seq [A.iri.vcf_indel_seq, B.iri.vcf_indel_seq]
        (min a.dindel.indel_qphred b.dindel.indel_qphred) A.imod.filters
        [cigar_to_string A.imod.cigar, cigar_to_string B.imod.cigar]
        "1/2"
        (min (min a.dindel.indel_qphred b.dindel.indel_qphred)
          (min a.dindel.max_gt_qphred b.dindel.max_gt_qphred)) := by
  have hM : ∃ A B,
      modify_overlap_indel_record ag = some { ag with indel_buffer := [A, B] } ∧
      A.imod.is_overlap = true ∧ A.pos = a.pos ∧
      A.dindel.indel_qphred = min a.dindel.indel_qphred b.dindel.indel_qphred ∧
      A.imod.gqx = min (min a.dindel.indel_qphred b.dindel.indel_qphred)
        (min a.dindel.max_gt_qphred b.dindel.max_gt_qphred) ∧
      indel_get_gt A = "1/2" := by
    simp only [modify_overlap_indel_record, hb]
    refine ⟨_, _, rfl, ?_, ?_, ?_, ?_, ?_⟩
    · rw [aim_is_overlap]
    · rw [aim_pos]
    · rw [aim_dindel]
      dsimp only
      split_ifs <;> omega
    · rw [aim_gqx]
      dsimp only
      split_ifs <;> omega
    · simp [indel_get_gt, aim_is_overlap]
  obtain ⟨A, B, hM, hOv, hPos, hIq, hGqx, hGt⟩ := hM
  have hlen0 : ¬(ag.indel_buffer.length = 0) := by rw [hb]; simp
  have hlen1 : ¬(ag.indel_buffer.length = 1) := by rw [hb]; simp
  have hsimple : is_simple_indel_overlap ag.indel_buffer = true := by
    rw [hb]; simp [is_simple_indel_overlap, ha, hb2]
  refine ⟨A, B, hM, ?_, ?_⟩
  · simp only [process_overlaps, if_neg hlen0, if_neg hlen1, hsimple,
      eq_self_iff_true, if_true, hM, Option.map_some', Option.bind_eq_bind',
      Option.some_bind] at h
    cases hms : opt_map_list
        (overlap_site_step ag.opt false A) ag.site_buffer with
    | none =>
      rw [hms] at h
      simp at h
    | some sites' =>
      rw [hms] at h
      simp only [Option.some_bind, Option.some.injEq] at h
      subst h
      show ((emit_loop false [A, B] sites' _).output).filter is_indel_line = _
      rw [emit_loop]
      rw [emit_fuel_overlap_once A [B] ([A, B].length + sites'.length) sites' _
        (le_refl _)]
      simp [List.filter_append, is_indel_line]
  · simp [mk_indel_line, hOv, hPos, hIq, hGqx, hGt]

theorem filter_set_set_has (fs : filter_set) (g f : VCF_FILTERS) :
    (fs.set g).has f = (fs.has f || decide (f = g)) := by
  cases g <;> cases f <;> simp [filter_set.set, filter_set.has]

theorem filter_set_land_has (a b : filter_set) (f : VCF_FILTERS) :
    (a.land b).has f = (a.has f && b.has f) := by
  cases f <;> rfl

theorem ssf_gqx (opt : starling_options) (si : site_info) :
    (set_site_filters opt si).smod.gqx = si.smod.gqx := by
  simp only [set_site_filters]
  split_ifs <;> rfl

theorem ssf_modified_gt (opt : starling_options) (si : site_info) :
    (set_site_filters opt si).smod.modified_gt = si.smod.modified_gt := by
  simp only [set_site_filters]
  split_ifs <;> rfl

theorem ssf_max_gt (opt : starling_options) (si : site_info) :
    (set_site_filters opt si).smod.max_gt = si.smod.max_gt := by
  simp only [set_site_filters]
  split_ifs <;> rfl

theorem ssf_zero_ploidy (opt : starling_options) (si : site_info) :
    (set_site_filters opt si).smod.is_zero_ploidy = si.smod.is_zero_ploidy := by
  simp only [set_site_filters]
  split_ifs <;> rfl

theorem ssf_dgt (opt : starling_options) (si : site_info) :
    (set_site_filters opt si).dgt = si.dgt := by
  simp only [set_site_filters]
  split_ifs <;> rfl

theorem ssf_has_mono (opt : starling_options) (si : site_info) (f : VCF_FILTERS)
    (h : si.smod.filters.has f = true) :
    ((set_site_filters opt si).smod.filters).has f = true := by
  simp only [set_site_filters]
  split_ifs <;> simp [filter_set_set_has, h]

/-- C7.  Deferred-site adjustment under a non-conflict group: at ploidy 1
with a heterozygous site genotype, the site comes back with the
site-conflict filter, output genotype "unknown", its quality clamped to the
indel quality and its GQX clamped to the indel genotype quality; at ploidy
0 it comes back with output genotype "unknown" and the zero-ploidy flag;
any other ploidy is a fatal invariant violation (no result). -/
theorem c7_overlap_site_ploidy_rules (opt : starling_options) (ii : indel_info)
    (p : Nat) (si : site_info) :
    (p = 1 → DIGT_is_het si.smod.max_gt = true →
      ∃ si', modify_indel_overlap_site opt ii p si = some si' ∧
        (si'.smod.filters).has VCF_FILTERS.SiteConflict = true ∧
        si'.smod.modified_gt = MODIFIED_SITE_GT.UNKNOWN ∧
        si'.dgt.genome.snp_qphred =
          min si.dgt.genome.snp_qphred ii.dindel.indel_qphred ∧
        si'.smod.gqx = min si.smod.gqx ii.dindel.max_gt_qphred) ∧
    (p = 0 →
      ∃ si', modify_indel_overlap_site opt ii p si = some si' ∧
        si'.smod.modified_gt = MODIFIED_SITE_GT.UNKNOWN ∧
        si'.smod.is_zero_ploidy = true) ∧
    (2 ≤ p → modify_indel_overlap_site opt ii p si = none) := by
  refine ⟨?_, ?_, ?_⟩
  · intro hp hhet
    subst hp
    simp only [modify_indel_overlap_site]
    split_ifs with h1 h2
    · refine ⟨_, rfl, ?_, ?_, ?_, ?_⟩
      · exact ssf_has_mono _ _ _ (by simp [filter_set_set_has])
      · rw [ssf_modified_gt]
      · rw [ssf_dgt]
      · rw [ssf_gqx]
    all_goals simp_all
  · intro hp
    subst hp
    simp only [modify_indel_overlap_site]
    refine ⟨_, rfl, ?_, ?_⟩
    · rw [ssf_modified_gt]
    · rw [ssf_zero_ploidy]
  · intro hp
    simp only [modify_indel_overlap_site]
    rw [if_neg (by omega : ¬(p = 1)), if_neg (by omega : ¬(p = 0))]

/-- C8.  Deferred-site filter inheritance: the adjusted site's filter set is
the bitwise AND of the site's own filters with the indel record's filters,
taken first, and only then extended by the conditional site-conflict flag
and the re-run quality/depth filters; consequently a pre-existing filter
survives only if both the site and the indel carry it (or it is re-added as
one of those three). -/
theorem c8_filters_are_intersection_then_additions (opt : starling_options)
    (ii : indel_info) (p : Nat) (si si' : site_info)
    (h : modify_indel_overlap_site opt ii p si = some si') :
    si'.smod.filters = spec_inherited_filters opt ii p si ∧
    ∀ f, si'.smod.filters.has f = true →
      (si.smod.filters.has f && ii.imod.filters.has f) = true ∨
      f = VCF_FILTERS.SiteConflict ∨ f = VCF_FILTERS.LowGQX ∨
      f = VCF_FILTERS.HighDepth := by
  have hEq : si'.smod.filters = spec_inherited_filters opt ii p si := by
    match p with
    | 0 =>
      simp only [modify_indel_overlap_site] at h
      injection h with h
      subst h
      simp only [spec_inherited_filters]
      rw [if_neg (by simp : ¬((0 : Nat) = 1 ∧ DIGT_is_het si.smod.max_gt = true)),
        if_neg (by omega : ¬((0 : Nat) = 1))]
      simp only [set_site_filters]
      split_ifs <;> rfl
    | 1 =>
      simp only [modify_indel_overlap_site, if_true] at h
      simp only [spec_inherited_filters, if_true, true_and]
      by_cases hhet : DIGT_is_het si.smod.max_gt = true
      · rw [if_pos hhet] at h
        injection h with h
        subst h
        rw [if_pos hhet]
        simp only [set_site_filters]
        split_ifs <;> rfl
      · rw [if_neg hhet] at h
        rw [if_neg hhet]
        by_cases hhom : (si.smod.max_gt == DIGT_hom si.dgt.ref_gt) = true
        · rw [if_pos hhom] at h
          injection h with h
          subst h
          simp only [set_site_filters]
          split_ifs <;> rfl
        · rw [if_neg hhom] at h
          injection h with h
          subst h
          simp only [set_site_filters]
          split_ifs <;> rfl
    | n + 2 =>
      simp only [modify_indel_overlap_site] at h
      rw [if_neg (by omega : ¬(n + 2 = 1)), if_neg (by omega : ¬(n + 2 = 0))] at h
      cases h
  refine ⟨hEq, ?_⟩
  intro f hf
  rw [hEq] at hf
  simp only [spec_inherited_filters] at hf
  simp only [Bool.and_eq_true]
  split_ifs at hf <;>
    simp only [filter_set_set_has, filter_set_land_has, Bool.or_eq_true,
      Bool.and_eq_true, decide_eq_true_eq] at hf <;>
    tauto

/-- C10.  Isolated site genotype/GQX derivation: an unknown reference base
forces GQX 0 and genotype 0 (hom-ref of base 0); with a known base, model
disagreement forces GQX 0 and the genome model's genotype; with agreement,
the GQX is the smaller of the two models' genotype qualities and the
genotype is the shared one. -/
theorem c10_site_gqx_and_genotype_selection (opt : starling_options)
    (si : site_info) :
    (si.ref = 'N' →
      (add_site_modifiers opt si).smod.gqx = 0 ∧
      (add_site_modifiers opt si).smod.max_gt = ⟨0, 0⟩) ∧
    (si.ref ≠ 'N' → si.dgt.genome.max_gt ≠ si.dgt.poly.max_gt →
      (add_site_modifiers opt si).smod.gqx = 0 ∧
      (add_site_modifiers opt si).smod.max_gt = si.dgt.genome.max_gt) ∧
    (si.ref ≠ 'N' → si.dgt.genome.max_gt = si.dgt.poly.max_gt →
      (add_site_modifiers opt si).smod.gqx =
        min si.dgt.genome.max_gt_qphred si.dgt.poly.max_gt_qphred ∧
      (add_site_modifiers opt si).smod.max_gt = si.dgt.genome.max_gt) := by
  refine ⟨?_, ?_, ?_⟩
  · intro hN
    have hb : (si.ref == 'N') = true := by simp [hN]
    simp only [add_site_modifiers, hb, if_pos rfl, ssf_gqx, ssf_max_gt]
    exact ⟨rfl, rfl⟩
  · intro hN hne
    have hb : (si.ref == 'N') = false := by simp [hN]
    have hb2 : (si.dgt.genome.max_gt != si.dgt.poly.max_gt) = true := by
      simp [bne_iff_ne, hne]
    simp only [add_site_modifiers, hb, hb2, Bool.false_eq_true, if_false,
      if_pos rfl, ssf_gqx, ssf_max_gt]
    exact ⟨rfl, rfl⟩
  · intro hN heq
    have hb : (si.ref == 'N') = false := by simp [hN]
    have hb2 : (si.dgt.genome.max_gt != si.dgt.poly.max_gt) = false := by
      simp [bne_eq_false_iff_eq, heq]
    simp only [add_site_modifiers, hb, hb2, Bool.false_eq_true, if_false,
      ssf_gqx, ssf_max_gt]
    by_cases hlt : si.dgt.genome.max_gt_qphred < si.dgt.poly.max_gt_qphred
    · rw [if_pos hlt]
      constructor
      · show si.dgt.genome.max_gt_qphred = _
        omega
      · rfl
    · rw [if_neg hlt]
      constructor
      · show si.dgt.poly.max_gt_qphred = _
        omega
      · show si.dgt.poly.max_gt = _
        rw [heq]

theorem ca_pos (opt : starling_options) (ii : indel_info) :
    (conflict_adjust opt ii).pos = ii.pos := by
  simp only [conflict_adjust, aim_pos]

theorem ca_is_overlap (opt : starling_options) (ii : indel_info) :
    (conflict_adjust opt ii).imod.is_overlap = ii.imod.is_overlap := by
  simp only [conflict_adjust, aim_is_overlap]

theorem aim_has_mono (opt : starling_options) (ii : indel_info) (f : VCF_FILTERS)
    (h : ii.imod.filters.has f = true) :
    ((add_indel_modifiers opt ii).imod.filters).has f = true := by
  simp only [add_indel_modifiers]
  split_ifs <;> simp [filter_set_set_has, h]

theorem ca_indel_conflict (opt : starling_options) (ii : indel_info) :
    ((conflict_adjust opt ii).imod.filters).has VCF_FILTERS.IndelConflict = true := by
  simp only [conflict_adjust]
  exact aim_has_mono _ _ _ (by simp [filter_set_set_has])

theorem not_simple_of_conflict (l : List indel_info) (hlen : 2 ≤ l.length)
    (hcls : 3 ≤ l.length ∨ ∃ x ∈ l, is_het_indel x.dindel = false) :
    is_simple_indel_overlap l = false := by
  match l with
  | [] => simp at hlen
  | [a] => simp at hlen
  | [a, b] =>
    rcases hcls with h3 | ⟨x, hx, hnh⟩
    · simp at h3
    · simp only [List.mem_cons, List.not_mem_nil, or_false] at hx
      rcases hx with rfl | rfl
      · simp [is_simple_indel_overlap, hnh]
      · simp [is_simple_indel_overlap, hnh]
  | a :: b :: c :: t => rfl

theorem modify_conflict_spec (ag : gvcf_aggregator)
    (hlen : 2 ≤ ag.indel_buffer.length) :
    modify_conflict_indel_record ag =
      some { ag with indel_buffer := ag.indel_buffer.map (conflict_adjust ag.opt) } := by
  simp only [modify_conflict_indel_record]
  rw [if_neg (by omega)]

theorem opt_map_conflict (opt : starling_options) (first : indel_info)
    (sites : List site_info) (hsite : ∀ si ∈ sites, first.pos ≤ si.pos) :
    opt_map_list (overlap_site_step opt true first) sites =
      some (sites.map modify_indel_conflict_site) := by
  induction sites with
  | nil => rfl
  | cons s ss ih =>
    have h1 : ¬(s.pos - first.pos < 0) := by
      have := hsite s (by simp)
      omega
    simp only [opt_map_list, overlap_site_step, if_neg h1, Bool.not_true,
      Bool.false_eq_true, if_false, Option.bind_eq_bind', Option.some_bind,
      ih fun si hsi => hsite si (by simp [hsi]), List.map_cons]

theorem mk_indel_line_single (chrom : String) (i : indel_info)
    (rest : List indel_info) (h : i.imod.is_overlap = false) :
    mk_indel_line chrom (i :: rest) = mk_indel_line chrom [i] := by
  simp [mk_indel_line, h]

theorem conflict_lines_eq_map (chrom : String) (l : List indel_info)
    (hov : ∀ ii ∈ l, ii.imod.is_overlap = false) :
    conflict_lines chrom l = l.map fun ii => mk_indel_line chrom [ii] := by
  induction l with
  | nil => rfl
  | cons i irest ih =>
    rw [conflict_lines, mk_indel_line_single chrom i irest (hov i (by simp)),
      ih fun x hx => hov x (by simp [hx]), List.map_cons]

/-- C9 (amended to groups of at least two members).  A finalized group that
is not resolvable — at least two buffered members and (three or more
members, or some member not heterozygous) — does not abort: the group
produces exactly one indel record per member, in member order, each built
from that member alone (single alt sequence, own descriptor, never
combined) and carrying the indel-conflict filter, and each deferred site is
adjusted only by adding the indel-conflict filter, leaving its genotype and
qualities untouched. -/
theorem c9_conflict_group_member_records (ag : gvcf_aggregator)
    (first : indel_info) (rest : List indel_info)
    (hb : ag.indel_buffer = first :: rest)
    (hlen : 2 ≤ ag.indel_buffer.length)
    (hcls : 3 ≤ ag.indel_buffer.length ∨
      ∃ ii ∈ ag.indel_buffer, is_het_indel ii.dindel = false)
    (hov : ∀ ii ∈ ag.indel_buffer, ii.imod.is_overlap = false)
    (hsite : ∀ si ∈ ag.site_buffer, first.pos ≤ si.pos) :
    ((process_overlaps ag).map fun x => (x.output).filter is_indel_line) =
      some ((ag.output).filter is_indel_line ++
        (ag.indel_buffer.map (conflict_adjust ag.opt)).map
          fun ii => mk_indel_line ag.chrom [ii]) ∧
    (∀ ii, ((conflict_adjust ag.opt ii).imod.filters).has
        VCF_FILTERS.IndelConflict = true) ∧
    (∀ ii, line_alts (mk_indel_line ag.chrom [ii]) = [ii.iri.vcf_indel_seq]) ∧
    (∀ si, modify_indel_conflict_site si =
      { si with smod :=
          { si.smod with filters := si.smod.filters.set VCF_FILTERS.IndelConflict } }) := by
  refine ⟨?_, ca_indel_conflict ag.opt, ?_, fun si => rfl⟩
  · have hlen' : 2 ≤ rest.length + 1 := by
      rw [hb, List.length_cons] at hlen
      exact hlen
    have c0 : ((first :: rest).length = 0) = False := by simp
    have c1 : ((first :: rest).length = 1) = False := by
      simp only [List.length_cons]
      exact eq_false (by omega)
    have hns' : is_simple_indel_overlap (first :: rest) = false := by
      rw [← hb]
      exact not_simple_of_conflict _ hlen hcls
    have hmc := modify_conflict_spec ag hlen
    have hsite' : ∀ si ∈ ag.site_buffer,
        (conflict_adjust ag.opt first).pos ≤ si.pos := by
      intro si hsi
      rw [ca_pos]
      exact hsite si hsi
    have hms := opt_map_conflict ag.opt (conflict_adjust ag.opt first)
      ag.site_buffer hsite'
    simp only [process_overlaps, hb, c0, c1, if_false, hns',
      Bool.false_eq_true, hmc, Option.map_some', Option.bind_eq_bind',
      Option.some_bind, List.map_cons, hms, emit_loop]
    rw [(emit_fuel_conflict_each _ _ _ _ (le_refl _)).1]
    have hov' : ∀ ii ∈ conflict_adjust ag.opt first ::
        List.map (conflict_adjust ag.opt) rest, ii.imod.is_overlap = false := by
      intro x hx
      rcases List.mem_cons.mp hx with rfl | hx'
      · rw [ca_is_overlap]
        exact hov first (by rw [hb]; simp)
      · obtain ⟨y, hy, rfl⟩ := List.mem_map.mp hx'
        rw [ca_is_overlap]
        exact hov y (by rw [hb]; simp [hy])
    rw [conflict_lines_eq_map _ _ hov']
    simp [List.filter_append, is_indel_line]
  · intro ii
    simp [mk_indel_line, line_alts]

/-- Witness for C5 at the concrete two-heterozygous-deletion group. -/
theorem c5_witness_two_het_overlap :
    ∃ ag', process_overlaps agW = some ag' ∧
      ∃ A B,
        modify_overlap_indel_record agW = some { agW with indel_buffer := [A, B] } ∧
        (ag'.output).filter is_indel_line =
          (agW.output).filter is_indel_line ++ [mk_indel_line agW.chrom [A, B]] ∧
        mk_indel_line agW.chrom [A, B] = out_line.indel agW.chrom iiA.pos
          A.iri.vcf_ref_seq [A.iri.vcf_indel_seq, B.iri.vcf_indel_seq]
          (min iiA.dindel.indel_qphred iiB.dindel.indel_qphred) A.imod.filters
          [cigar_to_string A.imod.cigar, cigar_to_string B.imod.cigar]
          "1/2"
          (min (min iiA.dindel.indel_qphred iiB.dindel.indel_qphred)
            (min iiA.dindel.max_gt_qphred iiB.dindel.max_gt_qphred)) := by
  have hs : (process_overlaps agW).isSome = true := rfl
  exact ⟨(process_overlaps agW).get hs, (Option.some_get hs).symm,
    c5_two_het_overlap_single_combined_record agW _ iiA iiB rfl rfl rfl
      (Option.some_get hs).symm⟩

/-- Witness for C6 at the same group: the shared ploidy vector comes out as
[1, 0, 0] — position 5 matched only by the second haplotype, positions 6
and 7 deleted on both. -/
theorem c6_witness_overlap_ploidy :
    (∃ A B,
      modify_overlap_indel_record agW = some { agW with indel_buffer := [A, B] } ∧
      A.imod.ploidy.length = (agW.indel_end_pos - iiA.pos).toNat ∧
      ∀ k : Nat, k < A.imod.ploidy.length →
        A.imod.ploidy.get? k = some
          ((if cigar_match_covers A.imod.cigar (-1) k then 1 else 0) +
           (if cigar_match_covers B.imod.cigar (-1) k then 1 else 0))) ∧
    ((modify_overlap_indel_record agW).map fun ag =>
      ag.indel_buffer.map fun x => x.imod.ploidy) = some [[1, 0, 0], []] :=
  ⟨c6_overlap_ploidy_is_sum_of_match_indicators agW iiA iiB rfl rfl rfl, rfl⟩

/-- Witness for C7 at a heterozygous site under the overlap record `iiX`:
ploidy 1 yields the site-conflict filter, "unknown" genotype and clamped
qualities; ploidy 2 aborts. -/
theorem c7_witness_site_rules :
    DIGT_is_het siX.smod.max_gt = true ∧
    (∃ si', modify_indel_overlap_site opt0 iiX 1 siX = some si' ∧
      (si'.smod.filters).has VCF_FILTERS.SiteConflict = true ∧
      si'.smod.modified_gt = MODIFIED_SITE_GT.UNKNOWN ∧
      si'.dgt.genome.snp_qphred =
        min siX.dgt.genome.snp_qphred iiX.dindel.indel_qphred ∧
      si'.smod.gqx = min siX.smod.gqx iiX.dindel.max_gt_qphred) ∧
    modify_indel_overlap_site opt0 iiX 2 siX = none :=
  ⟨rfl, (c7_overlap_site_ploidy_rules opt0 iiX 1 siX).1 rfl rfl,
    (c7_overlap_site_ploidy_rules opt0 iiX 2 siX).2.2 (by omega)⟩

/-- Witness for C8: the site carried LowGQX and HighDepth, the indel only
LowGQX; the intersection drops HighDepth and the heterozygous ploidy-1 path
re-adds SiteConflict. -/
theorem c8_witness_filter_intersection :
    ∃ si', modify_indel_overlap_site opt0 iiX 1 siX = some si' ∧
      (si'.smod.filters = spec_inherited_filters opt0 iiX 1 siX ∧
        ∀ f, si'.smod.filters.has f = true →
          (siX.smod.filters.has f && iiX.imod.filters.has f) = true ∨
          f = VCF_FILTERS.SiteConflict ∨ f = VCF_FILTERS.LowGQX ∨
          f = VCF_FILTERS.HighDepth) ∧
      spec_inherited_filters opt0 iiX 1 siX =
        { lowGQX := true, siteConflict := true } := by
  have hs : (modify_indel_overlap_site opt0 iiX 1 siX).isSome = true := rfl
  exact ⟨_, (Option.some_get hs).symm,
    c8_filters_are_intersection_then_additions opt0 iiX 1 siX _
      (Option.some_get hs).symm, rfl⟩

/-- Witness for C9 at the three-deletion conflict group with one deferred
site. -/
theorem c9_witness_three_del_conflict :
    2 ≤ agC.indel_buffer.length ∧
    (∃ ii ∈ agC.indel_buffer, is_het_indel ii.dindel = false) ∧
    ((process_overlaps agC).map fun x => (x.output).filter is_indel_line) =
      some ((agC.output).filter is_indel_line ++
        (agC.indel_buffer.map (conflict_adjust agC.opt)).map
          fun ii => mk_indel_line agC.chrom [ii]) ∧
    (∀ ii, ((conflict_adjust agC.opt ii).imod.filters).has
        VCF_FILTERS.IndelConflict = true) ∧
    (∀ ii, line_alts (mk_indel_line agC.chrom [ii]) = [ii.iri.vcf_indel_seq]) := by
  have h := c9_conflict_group_member_records agC iiC1 [iiC2, iiC3] rfl
    (by decide) (Or.inr ⟨iiC2, by decide, rfl⟩) (by decide)
    (fun si hsi => by rw [List.mem_singleton.mp hsi]; decide)
  exact ⟨by decide, ⟨iiC2, by decide, rfl⟩, h.1, h.2.1, h.2.2.1⟩

/-- Witness for C10 at a known-base site whose two models agree: the GQX is
the smaller genotype quality (35 from the genome model, against 37). -/
theorem c10_witness_agreeing_models :
    siW.ref ≠ 'N' ∧ siW.dgt.genome.max_gt = siW.dgt.poly.max_gt ∧
    (add_site_modifiers opt0 siW).smod.gqx =
      min siW.dgt.genome.max_gt_qphred siW.dgt.poly.max_gt_qphred ∧
    (add_site_modifiers opt0 siW).smod.max_gt = siW.dgt.genome.max_gt ∧
    (add_site_modifiers opt0 siW).smod.gqx = 35 := by
  have h := (c10_site_gqx_and_genotype_selection opt0 siW).2.2 (by decide) rfl
  exact ⟨by decide, rfl, h.1, h.2, rfl⟩
